import Mathlib

/-!
Verification of the attention/compliance engine of the co-creation study app.

Shallow embedding of:
* the `useWritingAttention` hook (both variants present in the repository:
  the ref-based variant and the second, earlier variant),
* the per-frame exponential-decay score computation,
* the `useComplianceGuard` hook (events, polling, `resume`) and the older
  `useAttentionGuard` hook's `resume`.

Browser state machines are modelled as explicit step functions over a state
record, driven by a list of inputs.  React `setX` state updates become field
updates of one record.  In the ref-based variant the loop reads its counters
through refs, kept in lockstep with the state, so its reads are current; in
the second variant the loop closure captures the React state variables at
effect start, so those reads are modelled through an explicit frozen
snapshot (stale closures), while ref reads and functional updates stay
current.
-/

/-! ### Attention scorer: decay formula (real-valued)

The per-frame score computation of `useWritingAttention` (identical in both
variants):

    let s = 1;
    if (idle > graceMs) {
      const t = idle - graceMs;
      s = Math.max(minScore, Math.exp(-Math.log(2) * (t / halfLifeMs)));
    }

Floating-point arithmetic is idealised as real arithmetic. -/
noncomputable def scoreOf (graceMs halfLifeMs minScore idle : ℝ) : ℝ :=
  if idle > graceMs then
    max minScore (Real.exp (-(Real.log 2) * ((idle - graceMs) / halfLifeMs)))
  else 1

/-! ### Attention escalation machine

The escalation logic (nudges, final warning, hysteresis, strike) compares the
frame's score sample against configured thresholds; the sample is passed to
the `tick` input as a parameter (rational, since only its order relations
matter), so the escalation logic is verified for every score trajectory; the
decay computation producing it is verified separately via `scoreOf`. -/

/-- Configuration record `AttnOpts` of `useWritingAttention`. -/
structure AttnCfg where
  graceMs : ℚ
  halfLifeMs : ℚ
  nudgeThreshold : ℚ
  finalThreshold : ℚ
  maxNudges : ℕ
  minScore : ℚ
  nudgeCooldownMs : ℚ
deriving DecidableEq

/-- Defaults of the ref-based variant:
`graceMs 5000, halfLifeMs 15000, nudgeThreshold 0.5, finalThreshold 0.2,
maxNudges 5, minScore 0.05, nudgeCooldownMs 15000`. -/
def attnDefaults1 : AttnCfg :=
  { graceMs := 5000, halfLifeMs := 15000, nudgeThreshold := 1/2,
    finalThreshold := 1/5, maxNudges := 5, minScore := 1/20,
    nudgeCooldownMs := 15000 }

/-- Defaults of the second variant:
`graceMs 5000, halfLifeMs 30000, nudgeThreshold 0.5, finalThreshold 0.35,
maxNudges 2, minScore 0.05, nudgeCooldownMs 15000`. -/
def attnDefaults2 : AttnCfg :=
  { graceMs := 5000, halfLifeMs := 30000, nudgeThreshold := 1/2,
    finalThreshold := 7/20, maxNudges := 2, minScore := 1/20,
    nudgeCooldownMs := 15000 }

/-- The state of `useWritingAttention`: the `useState` fields plus the refs
`lastActRef`, `lastNudgeRef`, `armedFinalRef`, `hysteresisOkRef`.  The
`nudgesRef` of the ref-based variant is kept in lockstep with the `nudges`
state by the source, so both are modelled by the single field `nudges`. -/
structure AttnState where
  score : ℚ
  showNudge : Bool
  nudges : ℕ
  showFinalWarning : Bool
  finalStrike : Bool
  worstScore : ℚ
  lastAct : ℚ
  lastNudge : ℚ
  armedFinal : Bool
  hysteresisOk : Bool
deriving DecidableEq

/-- Initial state (session origin taken as time 0). -/
def initAttn : AttnState :=
  { score := 1, showNudge := false, nudges := 0, showFinalWarning := false,
    finalStrike := false, worstScore := 1, lastAct := 0, lastNudge := 0,
    armedFinal := false, hysteresisOk := true }

/-- `markActive`: update `lastActRef` to now and set the score to 1
(`worstScore` is deliberately not touched). -/
def markActive (now : ℚ) (st : AttnState) : AttnState :=
  { st with lastAct := now, score := 1 }

/-- Start of the per-frame loop body: publish the score sample `s` and fold
it into `worstScore` (`setWorstScore(prev => Math.min(prev, s))`). -/
def scorePhase (st : AttnState) (s : ℚ) : AttnState :=
  { st with score := s, worstScore := min st.worstScore s }

/-- Nudge handling of the ref-based variant (in one frame): fire a nudge if
no strike yet, final warning not armed, the score is below `nudgeThreshold`,
the nudge budget is not exhausted and the cooldown has elapsed; after the
last nudge, arm the final warning and drop `hysteresisOk`. -/
def nudgePhase (cfg : AttnCfg) (st : AttnState) (now s : ℚ) : AttnState :=
  if st.finalStrike = false ∧ st.armedFinal = false ∧
      s < cfg.nudgeThreshold ∧ st.nudges < cfg.maxNudges then
    if now - st.lastNudge > cfg.nudgeCooldownMs then
      if st.nudges + 1 ≥ cfg.maxNudges then
        { st with lastNudge := now, nudges := st.nudges + 1, showNudge := true,
                  showFinalWarning := true, armedFinal := true,
                  hysteresisOk := false }
      else
        { st with lastNudge := now, nudges := st.nudges + 1, showNudge := true }
    else st
  else st

/-- Hysteresis recovery: once armed, a score above `finalThreshold + 0.08`
re-enables the strike gate. -/
def hystPhase (cfg : AttnCfg) (st : AttnState) (s : ℚ) : AttnState :=
  if st.armedFinal = true ∧ s > cfg.finalThreshold + 8/100 then
    { st with hysteresisOk := true }
  else st

/-- Final strike: once armed and not yet struck, a dip below
`finalThreshold` with the hysteresis gate open sets the strike and closes
the gate. -/
def strikePhase (cfg : AttnCfg) (st : AttnState) (s : ℚ) : AttnState :=
  if st.armedFinal = true ∧ st.finalStrike = false ∧
      s < cfg.finalThreshold ∧ st.hysteresisOk = true then
    { st with finalStrike := true, hysteresisOk := false }
  else st

/-- One animation-frame evaluation of the ref-based variant's `loop`,
given the frame's score sample `s`. -/
def loopStep (cfg : AttnCfg) (st : AttnState) (now s : ℚ) : AttnState :=
  strikePhase cfg (hystPhase cfg (nudgePhase cfg (scorePhase st s) now s) s) s

/-- Inputs driving `useWritingAttention`: one animation frame (`tick`, with
the frame's score sample), the listened activity events, and the 2.5s
timeout that hides the nudge toast. -/
inductive AttnInput where
  | tick (now s : ℚ)
  | keydown (now : ℚ) (metaKey ctrlKey altKey : Bool)
  | inputEvt (now : ℚ)
  | mousemove (now : ℚ)
  | mousedown (now : ℚ)
  | wheel (now : ℚ)
  | selectionchange (now : ℚ)
  | nudgeHideTimeout
deriving DecidableEq

/-- Step function of the ref-based variant: the `key` handler ignores
key-downs carrying a meta/ctrl/alt modifier; every other listened event is
`markActive`. -/
def attnStep (cfg : AttnCfg) (st : AttnState) : AttnInput → AttnState
  | .tick now s => loopStep cfg st now s
  | .keydown now m c a => if m || c || a then st else markActive now st
  | .inputEvt now => markActive now st
  | .mousemove now => markActive now st
  | .mousedown now => markActive now st
  | .wheel now => markActive now st
  | .selectionchange now => markActive now st
  | .nudgeHideTimeout => { st with showNudge := false }

/-- Run the ref-based variant from the initial state. -/
def attnRun (cfg : AttnCfg) (l : List AttnInput) : AttnState :=
  l.foldl (attnStep cfg) initAttn

/-- Reset branch of the ref-based variant (executed when `enabled` becomes
false); every field except `lastActRef` is set back to its initial value. -/
def resetOnDisable (st : AttnState) : AttnState :=
  { st with score := 1, showNudge := false, nudges := 0,
            showFinalWarning := false, finalStrike := false, worstScore := 1,
            lastNudge := 0, armedFinal := false, hysteresisOk := true }

/-! ### Second variant of `useWritingAttention`

The second variant's animation-frame loop is a closure created by the
effect, whose dependency array is `[enabled]`.  The React state variables
the loop reads directly — `nudges`, `showFinalWarning`, `finalStrike`,
`worstScore` — are therefore frozen at their values at effect start (stale
closures), while the refs (`lastActRef`, `lastNudgeRef`, `armedFinalRef`,
`hysteresisOkRef`) and the functional update `setNudges(n => n + 1)` always
see current values.  The frozen snapshot is passed explicitly. -/

/-- The React state values captured by the second variant's effect closure
when the effect runs. -/
structure AttnFrozen where
  nudges : ℕ
  showFinalWarning : Bool
  finalStrike : Bool
  worstScore : ℚ
deriving DecidableEq

/-- Snapshot of the closure-captured state fields. -/
def frozenOf (st : AttnState) : AttnFrozen :=
  { nudges := st.nudges, showFinalWarning := st.showFinalWarning,
    finalStrike := st.finalStrike, worstScore := st.worstScore }

/-- Snapshot captured by a monitored session that starts from the initial
state. -/
def initFrozen : AttnFrozen := frozenOf initAttn

/-- `worstScore` update of the second variant:
`if (s < worstScore) setWorstScore(s)` — the read of `worstScore` is the
frozen closure value, the write is a direct `setWorstScore(s)`. -/
def scorePhase2 (fz : AttnFrozen) (st : AttnState) (s : ℚ) : AttnState :=
  { st with score := s,
            worstScore := if s < fz.worstScore then s else st.worstScore }

/-- Nudge handling of the second variant: the guard reads the frozen
closure values of `finalStrike`, `showFinalWarning` and `nudges`, the
cooldown uses `lastNudgeRef` (fresh), `setNudges(n => n + 1)` increments the
current counter, and the arming test `nudges + 1 >= maxNudges` again reads
the frozen `nudges`. -/
def nudgePhase2 (cfg : AttnCfg) (fz : AttnFrozen) (st : AttnState)
    (now s : ℚ) : AttnState :=
  if fz.finalStrike = false ∧ fz.showFinalWarning = false ∧
      s < cfg.nudgeThreshold ∧ fz.nudges < cfg.maxNudges then
    if now - st.lastNudge > cfg.nudgeCooldownMs then
      if fz.nudges + 1 ≥ cfg.maxNudges then
        { st with lastNudge := now, nudges := st.nudges + 1, showNudge := true,
                  showFinalWarning := true, armedFinal := true,
                  hysteresisOk := false }
      else
        { st with lastNudge := now, nudges := st.nudges + 1, showNudge := true }
    else st
  else st

/-- Final strike of the second variant: `armedFinalRef` and
`hysteresisOkRef` are fresh refs, but the `!finalStrike` read is the frozen
closure value; `setFinalStrike(true)` is idempotent. -/
def strikePhase2 (cfg : AttnCfg) (fz : AttnFrozen) (st : AttnState)
    (s : ℚ) : AttnState :=
  if st.armedFinal = true ∧ fz.finalStrike = false ∧
      s < cfg.finalThreshold ∧ st.hysteresisOk = true then
    { st with finalStrike := true, hysteresisOk := false }
  else st

/-- One animation-frame evaluation of the second variant's `loop` (the
hysteresis recovery reads only refs, so `hystPhase` is shared). -/
def loopStep2 (cfg : AttnCfg) (fz : AttnFrozen) (st : AttnState)
    (now s : ℚ) : AttnState :=
  strikePhase2 cfg fz
    (hystPhase cfg (nudgePhase2 cfg fz (scorePhase2 fz st s) now s) s) s

/-- Step function of the second variant (event handlers are identical to
the ref-based variant and read no frozen state). -/
def attnStep2 (cfg : AttnCfg) (fz : AttnFrozen) (st : AttnState) :
    AttnInput → AttnState
  | .tick now s => loopStep2 cfg fz st now s
  | .keydown now m c a => if m || c || a then st else markActive now st
  | .inputEvt now => markActive now st
  | .mousemove now => markActive now st
  | .mousedown now => markActive now st
  | .wheel now => markActive now st
  | .selectionchange now => markActive now st
  | .nudgeHideTimeout => { st with showNudge := false }

/-- Run the second variant over a session that starts from the initial
state, so the effect closure freezes the initial values. -/
def attnRun2 (cfg : AttnCfg) (l : List AttnInput) : AttnState :=
  l.foldl (attnStep2 cfg initFrozen) initAttn

/-- Disable behaviour of the second variant: the effect body just returns
when `enabled` is false; only the effect cleanup runs, which hides the nudge
toast (`setShowNudge(false)`).  No other field is touched. -/
def cleanupOnDisable2 (st : AttnState) : AttnState :=
  { st with showNudge := false }

/-! ### Observables used by the claims -/

/-- A frame emits a nudge exactly when the guard of `nudgePhase` and the
cooldown test both pass. -/
def emitsNudge (cfg : AttnCfg) (st : AttnState) (now s : ℚ) : Bool :=
  !st.finalStrike && !st.armedFinal && decide (s < cfg.nudgeThreshold) &&
    decide (st.nudges < cfg.maxNudges) &&
    decide (now - st.lastNudge > cfg.nudgeCooldownMs)

/-- A frame is a hysteresis recovery when, at the moment the recovery check
runs (i.e. after the frame's nudge handling), the final warning is armed and
the score sample exceeds `finalThreshold + 0.08`. -/
def tickRecovery (cfg : AttnCfg) (st : AttnState) (now s : ℚ) : Bool :=
  (nudgePhase cfg (scorePhase st s) now s).armedFinal &&
    decide (s > cfg.finalThreshold + 8/100)

/-- `recOcc cfg st l = true` iff some frame of `l`, run from `st`, is a
hysteresis recovery. -/
def recOcc (cfg : AttnCfg) : AttnState → List AttnInput → Bool
  | _, [] => false
  | st, i :: rest =>
      (match i with
       | AttnInput.tick now s => tickRecovery cfg st now s
       | _ => false) || recOcc cfg (attnStep cfg st i) rest

/-- A frame of the second variant emits a nudge exactly when its (stale)
guard and the cooldown test pass; only the cooldown reads current state. -/
def emitsNudge2 (cfg : AttnCfg) (fz : AttnFrozen) (st : AttnState)
    (now s : ℚ) : Bool :=
  !fz.finalStrike && !fz.showFinalWarning && decide (s < cfg.nudgeThreshold) &&
    decide (fz.nudges < cfg.maxNudges) &&
    decide (now - st.lastNudge > cfg.nudgeCooldownMs)

/-- Hysteresis recovery of a second-variant frame (in a session started
from the initial state): after the frame's nudge handling the warning is
armed and the score sample exceeds `finalThreshold + 0.08`. -/
def tickRecovery2 (cfg : AttnCfg) (st : AttnState) (now s : ℚ) : Bool :=
  (nudgePhase2 cfg initFrozen (scorePhase2 initFrozen st s) now s).armedFinal &&
    decide (s > cfg.finalThreshold + 8/100)

/-- `recOcc2 cfg st l = true` iff some second-variant frame of `l`, run
from `st`, is a hysteresis recovery. -/
def recOcc2 (cfg : AttnCfg) : AttnState → List AttnInput → Bool
  | _, [] => false
  | st, i :: rest =>
      (match i with
       | AttnInput.tick now s => tickRecovery2 cfg st now s
       | _ => false) || recOcc2 cfg (attnStep2 cfg initFrozen st i) rest

/-- Coupling relation between a ref-based-variant state and a
second-variant state, used to transport second-variant recoveries to
ref-based-variant recoveries over the same input list (for
`maxNudges ≤ 1`, the only regime in which the second variant can arm):
either both runs have armed, or neither has nudged yet and their
guard-relevant fields agree. -/
def syncRel (st1 st2 : AttnState) : Prop :=
  (st2.armedFinal = true → st1.armedFinal = true) ∧
  (st2.armedFinal = false →
    st1.armedFinal = false ∧ st1.finalStrike = false ∧
    st2.finalStrike = false ∧ st1.nudges = 0 ∧ st2.nudges = 0 ∧
    st1.lastNudge = st2.lastNudge)

/-! ### Compliance guard (`useComplianceGuard`)

The browser-side facts the guard samples are collected in an environment
record; each event/poll input carries the environment observed at that
moment.  The 500ms poll cadence and the wake-lock resource are not modelled:
no claim depends on them, and wake-lock failures are swallowed by the source.
The developer escape sequence is modelled at the granularity of its effect
(a single input standing for the fifth qualifying Ctrl+Shift+E press). -/

/-- Browser state sampled by the guard. -/
structure GuardEnv where
  visible : Bool
  focused : Bool
  fullscreenEl : Bool
deriving DecidableEq

/-- Compliance predicate:
`visible && focused && (!requireFullscreen || !!document.fullscreenElement)`. -/
def isCompliant (requireFullscreen : Bool) (env : GuardEnv) : Bool :=
  env.visible && env.focused && (!requireFullscreen || env.fullscreenEl)

/-- State of `useComplianceGuard`: `needsAttention`, `violations` and the
`suppressedRef` developer-override flag. -/
structure GuardState where
  needsAttention : Bool
  violations : ℕ
  suppressed : Bool
deriving DecidableEq

/-- Callback invocations produced by a step (`opts.onViolation?.(next)`,
`opts.onResume?.()`, and `opts.onAllowedResume?.()` of the older
`useAttentionGuard`). -/
inductive GOut where
  | onViolation (n : ℕ)
  | onResume
  | onAllowedResume
deriving DecidableEq

/-- `flagViolation`: unless suppressed, increment `violations`, invoke the
violation callback with the new count, and raise `needsAttention`. -/
def flagViolation (st : GuardState) : GuardState × List GOut :=
  if st.suppressed then (st, [])
  else
    ({ st with violations := st.violations + 1, needsAttention := true },
     [GOut.onViolation (st.violations + 1)])

/-- `checkNow`: if suppressed, clear `needsAttention`; otherwise set it to
the negation of the compliance predicate. -/
def checkNow (req : Bool) (st : GuardState) (env : GuardEnv) : GuardState :=
  if st.suppressed then { st with needsAttention := false }
  else { st with needsAttention := !(isCompliant req env) }

/-- `resume`: after the fullscreen re-request and the one-frame wait (both
absorbed into the environment `env` observed when the check runs), clear
`needsAttention` and invoke the resume callback if now compliant; otherwise
keep the overlay up. -/
def resumeStep (req : Bool) (st : GuardState) (env : GuardEnv) :
    GuardState × List GOut :=
  if isCompliant req env then ({ st with needsAttention := false }, [GOut.onResume])
  else ({ st with needsAttention := true }, [])

/-- `resume` of the older `useAttentionGuard` (part_000): after the
best-effort fullscreen and wake-lock requests it unconditionally clears
`needsAttention` and invokes `onAllowedResume`, without re-checking
compliance. -/
def resumeAG (st : GuardState) : GuardState × List GOut :=
  ({ st with needsAttention := false }, [GOut.onAllowedResume])

/-- Inputs driving `useComplianceGuard`; each carries the environment
observed by the handler.  `resumeSettled env` is a `resume()` call whose
post-fullscreen-request, post-frame environment is `env`;
`escapeCompleted` is the completion of the developer escape sequence. -/
inductive GInput where
  | visibilitychange (env : GuardEnv)
  | blur (env : GuardEnv)
  | focusEvt (env : GuardEnv)
  | fullscreenchange (env : GuardEnv)
  | pollTick (env : GuardEnv)
  | resumeSettled (env : GuardEnv)
  | escapeCompleted
deriving DecidableEq

/-- Shared body of the `visibilitychange`, `blur` and `fullscreenchange`
handlers: `if (!isCompliant()) flagViolation(); else checkNow();`. -/
def complianceEventStep (req : Bool) (st : GuardState) (env : GuardEnv) :
    GuardState × List GOut :=
  if isCompliant req env then (checkNow req st env, []) else flagViolation st

/-- Step function of `useComplianceGuard`. -/
def guardStep (req : Bool) (st : GuardState) : GInput → GuardState × List GOut
  | .visibilitychange env => complianceEventStep req st env
  | .blur env => complianceEventStep req st env
  | .focusEvt env => (checkNow req st env, [])
  | .fullscreenchange env => complianceEventStep req st env
  | .pollTick env => (checkNow req st env, [])
  | .resumeSettled env => resumeStep req st env
  | .escapeCompleted =>
      ({ st with suppressed := true, needsAttention := false }, [GOut.onResume])

/-- Initial guard state, optionally seeded with a prior violation count
(`opts.initialViolations`). -/
def initGuard (seed : ℕ) : GuardState :=
  { needsAttention := false, violations := seed, suppressed := false }

/-- Run the guard from a seeded initial state, discarding outputs. -/
def guardRun (req : Bool) (seed : ℕ) (l : List GInput) : GuardState :=
  l.foldl (fun st i => (guardStep req st i).1) (initGuard seed)

/-- A fully non-compliant environment (tab hidden, unfocused, fullscreen
exited). -/
def envHidden : GuardEnv :=
  { visible := false, focused := false, fullscreenEl := false }

/-- A fully compliant environment. -/
def envOk : GuardEnv :=
  { visible := true, focused := true, fullscreenEl := true }

/-! ### Guard helper lemmas -/

theorem checkNow_violations (req : Bool) (st : GuardState) (env : GuardEnv) :
    (checkNow req st env).violations = st.violations := by
  unfold checkNow
  split <;> rfl

theorem resumeStep_violations (req : Bool) (st : GuardState) (env : GuardEnv) :
    (resumeStep req st env).1.violations = st.violations := by
  unfold resumeStep
  split <;> rfl

/-! ### Guard theorems -/

/-- C1 counterexample: with the tab already observed non-compliant
(overlay up, one violation recorded by a `visibilitychange` event), a
subsequent `blur` event observing the same non-compliant environment
increments `violations` again — two increments for one
compliant-to-non-compliant transition of the predicate. -/
theorem violation_double_count_on_two_events :
    (guardRun true 0 [GInput.visibilitychange envHidden]).violations = 1 ∧
    (guardRun true 0 [GInput.visibilitychange envHidden]).needsAttention = true ∧
    (guardRun true 0
      [GInput.visibilitychange envHidden, GInput.blur envHidden]).violations = 2 := by
  exact ⟨rfl, rfl, rfl⟩

/-- C1 amended: the periodic poll (`checkNow`) and the `focus` handler never
change `violations`; each `visibilitychange`/`blur`/`fullscreenchange` event
observed while the predicate fails and the guard is not suppressed increments
`violations` by exactly one — even when the state was already non-compliant —
and otherwise leaves it unchanged.  Violation counting is therefore
per-observing-event, not per-transition. -/
theorem violation_increment_per_event (req : Bool) (st : GuardState)
    (env : GuardEnv) :
    (guardStep req st (GInput.pollTick env)).1.violations = st.violations ∧
    (guardStep req st (GInput.focusEvt env)).1.violations = st.violations ∧
    (isCompliant req env = false ∧ st.suppressed = false →
      (guardStep req st (GInput.visibilitychange env)).1.violations
          = st.violations + 1 ∧
      (guardStep req st (GInput.blur env)).1.violations = st.violations + 1 ∧
      (guardStep req st (GInput.fullscreenchange env)).1.violations
          = st.violations + 1) ∧
    (isCompliant req env = true ∨ st.suppressed = true →
      (guardStep req st (GInput.visibilitychange env)).1.violations
          = st.violations ∧
      (guardStep req st (GInput.blur env)).1.violations = st.violations ∧
      (guardStep req st (GInput.fullscreenchange env)).1.violations
          = st.violations) := by
  refine ⟨checkNow_violations req st env, checkNow_violations req st env, ?_, ?_⟩
  · rintro ⟨hc, hs⟩
    simp [guardStep, complianceEventStep, flagViolation, hc, hs]
  · rintro (hc | hs)
    · simp only [guardStep, complianceEventStep, hc, if_true]
      exact ⟨checkNow_violations req st env, checkNow_violations req st env,
        checkNow_violations req st env⟩
    · have hflag : (flagViolation st).1.violations = st.violations := by
        simp [flagViolation, hs]
      simp only [guardStep, complianceEventStep]
      split
      · exact ⟨checkNow_violations req st env, checkNow_violations req st env,
          checkNow_violations req st env⟩
      · exact ⟨hflag, hflag, hflag⟩

/-- C1 witness: concrete instantiation of `violation_increment_per_event`
at a non-compliant, unsuppressed state. -/
theorem violation_increment_per_event_witness :
    (isCompliant true envHidden = false ∧ (initGuard 0).suppressed = false) ∧
    (guardStep true (initGuard 0)
        (GInput.visibilitychange envHidden)).1.violations
      = (initGuard 0).violations + 1 := by
  refine ⟨⟨rfl, rfl⟩, ?_⟩
  exact ((violation_increment_per_event true (initGuard 0) envHidden).2.2.1
    ⟨rfl, rfl⟩).1

/-- C9 counterexample: `useAttentionGuard`'s `resume` clears
`needsAttention` and invokes its resume callback even though the compliance
predicate (fullscreen required, tab hidden/unfocused) still fails. -/
theorem attention_guard_resume_unconditional :
    isCompliant true envHidden = false ∧
    (resumeAG (initGuard 0)).1.needsAttention = false ∧
    (resumeAG (initGuard 0)).2 = [GOut.onAllowedResume] := by
  exact ⟨rfl, rfl, rfl⟩

/-- C9 amended: for `useComplianceGuard`'s `resume`, after the fullscreen
re-request and one-frame wait, a now-passing predicate clears
`needsAttention` and invokes the resume callback, while a still-failing
predicate keeps `needsAttention` true and invokes nothing; the older
`useAttentionGuard`'s `resume` instead clears `needsAttention` and invokes
its callback unconditionally. -/
theorem resume_compliance_recheck (req : Bool) (st : GuardState)
    (env : GuardEnv) :
    (isCompliant req env = true →
      guardStep req st (GInput.resumeSettled env)
        = ({ st with needsAttention := false }, [GOut.onResume])) ∧
    (isCompliant req env = false →
      guardStep req st (GInput.resumeSettled env)
        = ({ st with needsAttention := true }, [])) ∧
    resumeAG st = ({ st with needsAttention := false }, [GOut.onAllowedResume]) := by
  refine ⟨?_, ?_, rfl⟩
  · intro hc
    simp [guardStep, resumeStep, hc]
  · intro hc
    simp [guardStep, resumeStep, hc]

/-- C9 witness: concrete instantiation of `resume_compliance_recheck` on a
compliant settled environment and on a non-compliant one. -/
theorem resume_compliance_recheck_witness :
    (isCompliant true envOk = true ∧
      guardStep true (initGuard 3) (GInput.resumeSettled envOk)
        = ({ initGuard 3 with needsAttention := false }, [GOut.onResume])) ∧
    (isCompliant true envHidden = false ∧
      guardStep true { initGuard 3 with needsAttention := true }
          (GInput.resumeSettled envHidden)
        = ({ initGuard 3 with needsAttention := true }, [])) := by
  refine ⟨⟨rfl, ?_⟩, ⟨rfl, ?_⟩⟩
  · exact (resume_compliance_recheck true (initGuard 3) envOk).1 rfl
  · exact (resume_compliance_recheck true
      { initGuard 3 with needsAttention := true } envHidden).2.1 rfl

/-- C10: frame condition of the guard — a step changes `violations` only on
the flagging path of a `visibilitychange`/`blur`/`fullscreenchange` handler
(predicate failing, guard unsuppressed), where it increments by one; poll
ticks never change `violations`; `resume` never changes `violations`
whatever its outcome, and leaves `needsAttention` equal to the negation of
the settled predicate, so a failed `resume` keeps the overlay up and adds no
violation. -/
theorem guard_frame_conditions (req : Bool) (st : GuardState) (i : GInput) :
    ((guardStep req st i).1.violations = st.violations ∨
      (∃ env, (i = GInput.visibilitychange env ∨ i = GInput.blur env ∨
          i = GInput.fullscreenchange env) ∧
        isCompliant req env = false ∧ st.suppressed = false ∧
        (guardStep req st i).1.violations = st.violations + 1)) ∧
    (∀ env, (guardStep req st (GInput.pollTick env)).1.violations
        = st.violations) ∧
    (∀ env,
      (guardStep req st (GInput.resumeSettled env)).1.violations
          = st.violations ∧
      (guardStep req st (GInput.resumeSettled env)).1.needsAttention
          = !(isCompliant req env)) := by
  refine ⟨?_, fun env => checkNow_violations req st env,
    fun env => ⟨resumeStep_violations req st env, ?_⟩⟩
  · cases i with
    | visibilitychange env =>
        by_cases hc : isCompliant req env
        · left
          simp only [guardStep, complianceEventStep, hc, if_true]
          exact checkNow_violations req st env
        · by_cases hs : st.suppressed
          · left
            simp [guardStep, complianceEventStep, flagViolation, hc, hs]
          · right
            refine ⟨env, Or.inl rfl, by simpa using hc, by simpa using hs, ?_⟩
            simp [guardStep, complianceEventStep, flagViolation, hc, hs]
    | blur env =>
        by_cases hc : isCompliant req env
        · left
          simp only [guardStep, complianceEventStep, hc, if_true]
          exact checkNow_violations req st env
        · by_cases hs : st.suppressed
          · left
            simp [guardStep, complianceEventStep, flagViolation, hc, hs]
          · right
            refine ⟨env, Or.inr (Or.inl rfl), by simpa using hc,
              by simpa using hs, ?_⟩
            simp [guardStep, complianceEventStep, flagViolation, hc, hs]
    | fullscreenchange env =>
        by_cases hc : isCompliant req env
        · left
          simp only [guardStep, complianceEventStep, hc, if_true]
          exact checkNow_violations req st env
        · by_cases hs : st.suppressed
          · left
            simp [guardStep, complianceEventStep, flagViolation, hc, hs]
          · right
            refine ⟨env, Or.inr (Or.inr rfl), by simpa using hc,
              by simpa using hs, ?_⟩
            simp [guardStep, complianceEventStep, flagViolation, hc, hs]
    | focusEvt env => exact Or.inl (checkNow_violations req st env)
    | pollTick env => exact Or.inl (checkNow_violations req st env)
    | resumeSettled env => exact Or.inl (resumeStep_violations req st env)
    | escapeCompleted => exact Or.inl rfl
  · by_cases hc : isCompliant req env <;> simp [guardStep, resumeStep, hc]

/-! ### Attention machine: phase projection lemmas -/

@[simp] theorem scorePhase_armedFinal (st : AttnState) (s : ℚ) :
    (scorePhase st s).armedFinal = st.armedFinal := rfl

@[simp] theorem scorePhase_showFinalWarning (st : AttnState) (s : ℚ) :
    (scorePhase st s).showFinalWarning = st.showFinalWarning := rfl

@[simp] theorem scorePhase_finalStrike (st : AttnState) (s : ℚ) :
    (scorePhase st s).finalStrike = st.finalStrike := rfl

@[simp] theorem scorePhase_hysteresisOk (st : AttnState) (s : ℚ) :
    (scorePhase st s).hysteresisOk = st.hysteresisOk := rfl

@[simp] theorem scorePhase_nudges (st : AttnState) (s : ℚ) :
    (scorePhase st s).nudges = st.nudges := rfl

@[simp] theorem scorePhase_lastNudge (st : AttnState) (s : ℚ) :
    (scorePhase st s).lastNudge = st.lastNudge := rfl

@[simp] theorem nudgePhase_finalStrike (cfg : AttnCfg) (st : AttnState)
    (now s : ℚ) : (nudgePhase cfg st now s).finalStrike = st.finalStrike := by
  unfold nudgePhase
  split_ifs <;> rfl

@[simp] theorem hystPhase_armedFinal (cfg : AttnCfg) (st : AttnState) (s : ℚ) :
    (hystPhase cfg st s).armedFinal = st.armedFinal := by
  unfold hystPhase
  split_ifs <;> rfl

@[simp] theorem hystPhase_showFinalWarning (cfg : AttnCfg) (st : AttnState)
    (s : ℚ) : (hystPhase cfg st s).showFinalWarning = st.showFinalWarning := by
  unfold hystPhase
  split_ifs <;> rfl

@[simp] theorem hystPhase_finalStrike (cfg : AttnCfg) (st : AttnState) (s : ℚ) :
    (hystPhase cfg st s).finalStrike = st.finalStrike := by
  unfold hystPhase
  split_ifs <;> rfl

@[simp] theorem hystPhase_nudges (cfg : AttnCfg) (st : AttnState) (s : ℚ) :
    (hystPhase cfg st s).nudges = st.nudges := by
  unfold hystPhase
  split_ifs <;> rfl

@[simp] theorem hystPhase_lastNudge (cfg : AttnCfg) (st : AttnState) (s : ℚ) :
    (hystPhase cfg st s).lastNudge = st.lastNudge := by
  unfold hystPhase
  split_ifs <;> rfl

@[simp] theorem strikePhase_armedFinal (cfg : AttnCfg) (st : AttnState)
    (s : ℚ) : (strikePhase cfg st s).armedFinal = st.armedFinal := by
  unfold strikePhase
  split_ifs <;> rfl

@[simp] theorem strikePhase_showFinalWarning (cfg : AttnCfg) (st : AttnState)
    (s : ℚ) : (strikePhase cfg st s).showFinalWarning = st.showFinalWarning := by
  unfold strikePhase
  split_ifs <;> rfl

@[simp] theorem strikePhase_nudges (cfg : AttnCfg) (st : AttnState) (s : ℚ) :
    (strikePhase cfg st s).nudges = st.nudges := by
  unfold strikePhase
  split_ifs <;> rfl

@[simp] theorem strikePhase_lastNudge (cfg : AttnCfg) (st : AttnState) (s : ℚ) :
    (strikePhase cfg st s).lastNudge = st.lastNudge := by
  unfold strikePhase
  split_ifs <;> rfl

/-! ### Second variant: phase projection and step lemmas -/

@[simp] theorem scorePhase2_armedFinal (fz : AttnFrozen) (st : AttnState)
    (s : ℚ) : (scorePhase2 fz st s).armedFinal = st.armedFinal := rfl

@[simp] theorem scorePhase2_showFinalWarning (fz : AttnFrozen) (st : AttnState)
    (s : ℚ) : (scorePhase2 fz st s).showFinalWarning = st.showFinalWarning := rfl

@[simp] theorem scorePhase2_finalStrike (fz : AttnFrozen) (st : AttnState)
    (s : ℚ) : (scorePhase2 fz st s).finalStrike = st.finalStrike := rfl

@[simp] theorem scorePhase2_hysteresisOk (fz : AttnFrozen) (st : AttnState)
    (s : ℚ) : (scorePhase2 fz st s).hysteresisOk = st.hysteresisOk := rfl

@[simp] theorem scorePhase2_nudges (fz : AttnFrozen) (st : AttnState)
    (s : ℚ) : (scorePhase2 fz st s).nudges = st.nudges := rfl

@[simp] theorem scorePhase2_lastNudge (fz : AttnFrozen) (st : AttnState)
    (s : ℚ) : (scorePhase2 fz st s).lastNudge = st.lastNudge := rfl

@[simp] theorem nudgePhase2_finalStrike (cfg : AttnCfg) (fz : AttnFrozen)
    (st : AttnState) (now s : ℚ) :
    (nudgePhase2 cfg fz st now s).finalStrike = st.finalStrike := by
  unfold nudgePhase2
  split_ifs <;> rfl

@[simp] theorem strikePhase2_armedFinal (cfg : AttnCfg) (fz : AttnFrozen)
    (st : AttnState) (s : ℚ) :
    (strikePhase2 cfg fz st s).armedFinal = st.armedFinal := by
  unfold strikePhase2
  split_ifs <;> rfl

@[simp] theorem strikePhase2_showFinalWarning (cfg : AttnCfg) (fz : AttnFrozen)
    (st : AttnState) (s : ℚ) :
    (strikePhase2 cfg fz st s).showFinalWarning = st.showFinalWarning := by
  unfold strikePhase2
  split_ifs <;> rfl

@[simp] theorem strikePhase2_nudges (cfg : AttnCfg) (fz : AttnFrozen)
    (st : AttnState) (s : ℚ) :
    (strikePhase2 cfg fz st s).nudges = st.nudges := by
  unfold strikePhase2
  split_ifs <;> rfl

@[simp] theorem strikePhase2_lastNudge (cfg : AttnCfg) (fz : AttnFrozen)
    (st : AttnState) (s : ℚ) :
    (strikePhase2 cfg fz st s).lastNudge = st.lastNudge := by
  unfold strikePhase2
  split_ifs <;> rfl

theorem attnRun2_append (cfg : AttnCfg) (l : List AttnInput) (i : AttnInput) :
    attnRun2 cfg (l ++ [i]) = attnStep2 cfg initFrozen (attnRun2 cfg l) i := by
  simp [attnRun2, List.foldl_append]

theorem attnStep2_armed_mono (cfg : AttnCfg) (fz : AttnFrozen)
    (st : AttnState) (i : AttnInput) (h : st.armedFinal = true) :
    (attnStep2 cfg fz st i).armedFinal = true := by
  cases i with
  | tick now s =>
      simp only [attnStep2, loopStep2]
      unfold strikePhase2 hystPhase nudgePhase2 scorePhase2
      split_ifs <;> simp_all
  | keydown now m c a =>
      simp only [attnStep2]
      split_ifs <;> simp_all [markActive]
  | inputEvt now => exact h
  | mousemove now => exact h
  | mousedown now => exact h
  | wheel now => exact h
  | selectionchange now => exact h
  | nudgeHideTimeout => exact h

theorem attnStep2_strike_mono (cfg : AttnCfg) (fz : AttnFrozen)
    (st : AttnState) (i : AttnInput) (h : st.finalStrike = true) :
    (attnStep2 cfg fz st i).finalStrike = true := by
  cases i with
  | tick now s =>
      simp only [attnStep2, loopStep2]
      unfold strikePhase2 hystPhase nudgePhase2 scorePhase2
      split_ifs <;> simp_all
  | keydown now m c a =>
      simp only [attnStep2]
      split_ifs <;> simp_all [markActive]
  | inputEvt now => exact h
  | mousemove now => exact h
  | mousedown now => exact h
  | wheel now => exact h
  | selectionchange now => exact h
  | nudgeHideTimeout => exact h

theorem attnStep2_strike_imp_armed (cfg : AttnCfg) (fz : AttnFrozen)
    (st : AttnState) (i : AttnInput)
    (h : st.finalStrike = true → st.armedFinal = true) :
    (attnStep2 cfg fz st i).finalStrike = true →
      (attnStep2 cfg fz st i).armedFinal = true := by
  cases i with
  | tick now s =>
      simp only [attnStep2, loopStep2]
      unfold strikePhase2 hystPhase nudgePhase2 scorePhase2
      split_ifs <;> simp_all
  | keydown now m c a =>
      simp only [attnStep2]
      split_ifs <;> simp_all [markActive]
  | inputEvt now => exact h
  | mousemove now => exact h
  | mousedown now => exact h
  | wheel now => exact h
  | selectionchange now => exact h
  | nudgeHideTimeout => exact h

theorem foldl2_strike_imp_armed (cfg : AttnCfg) (fz : AttnFrozen)
    (l : List AttnInput) :
    ∀ st : AttnState, (st.finalStrike = true → st.armedFinal = true) →
      (List.foldl (attnStep2 cfg fz) st l).finalStrike = true →
        (List.foldl (attnStep2 cfg fz) st l).armedFinal = true := by
  induction l with
  | nil => intro st h; exact h
  | cons i rest ih =>
      intro st h
      exact ih (attnStep2 cfg fz st i) (attnStep2_strike_imp_armed cfg fz st i h)

theorem emitsNudge2_step (cfg : AttnCfg) (fz : AttnFrozen) (st : AttnState)
    (now s : ℚ) (h : emitsNudge2 cfg fz st now s = true) :
    (attnStep2 cfg fz st (AttnInput.tick now s)).lastNudge = now ∧
      now - st.lastNudge > cfg.nudgeCooldownMs := by
  simp only [emitsNudge2, Bool.and_eq_true, Bool.not_eq_true',
    decide_eq_true_eq] at h
  obtain ⟨⟨⟨⟨hf, ha⟩, hs⟩, hn⟩, hc⟩ := h
  refine ⟨?_, hc⟩
  simp only [attnStep2, loopStep2, strikePhase2_lastNudge, hystPhase_lastNudge]
  unfold nudgePhase2
  simp only [scorePhase2_lastNudge]
  rw [if_pos ⟨hf, ha, hs, hn⟩, if_pos hc]
  split_ifs <;> rfl

theorem attnStep2_lastNudge_mono (cfg : AttnCfg) (fz : AttnFrozen)
    (st : AttnState) (i : AttnInput) (h0 : 0 ≤ cfg.nudgeCooldownMs) :
    st.lastNudge ≤ (attnStep2 cfg fz st i).lastNudge := by
  cases i with
  | tick now s =>
      simp only [attnStep2, loopStep2, strikePhase2_lastNudge,
        hystPhase_lastNudge]
      unfold nudgePhase2
      simp only [scorePhase2_lastNudge]
      split_ifs with h1 h2 h3
      · show st.lastNudge ≤ now
        linarith
      · show st.lastNudge ≤ now
        linarith
      · exact le_refl _
      · exact le_refl _
  | keydown now m c a =>
      simp only [attnStep2]
      split_ifs <;> exact le_refl _
  | inputEvt now => exact le_refl _
  | mousemove now => exact le_refl _
  | mousedown now => exact le_refl _
  | wheel now => exact le_refl _
  | selectionchange now => exact le_refl _
  | nudgeHideTimeout => exact le_refl _

theorem foldl2_lastNudge_mono (cfg : AttnCfg) (fz : AttnFrozen)
    (l : List AttnInput) (h0 : 0 ≤ cfg.nudgeCooldownMs) :
    ∀ st : AttnState,
      st.lastNudge ≤ (List.foldl (attnStep2 cfg fz) st l).lastNudge := by
  induction l with
  | nil => intro st; exact le_refl _
  | cons i rest ih =>
      intro st
      exact le_trans (attnStep2_lastNudge_mono cfg fz st i h0)
        (ih (attnStep2 cfg fz st i))

/-! ### Attention machine: step invariants -/

theorem attnRun_append (cfg : AttnCfg) (l : List AttnInput) (i : AttnInput) :
    attnRun cfg (l ++ [i]) = attnStep cfg (attnRun cfg l) i := by
  simp [attnRun, List.foldl_append]

theorem attnStep_nudges_le (cfg : AttnCfg) (st : AttnState) (i : AttnInput)
    (h : st.nudges ≤ cfg.maxNudges) :
    (attnStep cfg st i).nudges ≤ cfg.maxNudges := by
  cases i with
  | tick now s =>
      simp only [attnStep, loopStep, strikePhase_nudges, hystPhase_nudges]
      unfold nudgePhase
      split_ifs with h1 h2 h3 <;> simp_all <;> omega
  | keydown now m c a =>
      simp only [attnStep]
      split_ifs <;> exact h
  | inputEvt now => exact h
  | mousemove now => exact h
  | mousedown now => exact h
  | wheel now => exact h
  | selectionchange now => exact h
  | nudgeHideTimeout => exact h

theorem foldl_nudges_le (cfg : AttnCfg) (l : List AttnInput) :
    ∀ st : AttnState, st.nudges ≤ cfg.maxNudges →
      (List.foldl (attnStep cfg) st l).nudges ≤ cfg.maxNudges := by
  induction l with
  | nil => intro st h; exact h
  | cons i rest ih =>
      intro st h
      exact ih (attnStep cfg st i) (attnStep_nudges_le cfg st i h)

theorem emitsNudge_step (cfg : AttnCfg) (st : AttnState) (now s : ℚ)
    (h : emitsNudge cfg st now s = true) :
    (attnStep cfg st (AttnInput.tick now s)).lastNudge = now ∧
      now - st.lastNudge > cfg.nudgeCooldownMs := by
  simp only [emitsNudge, Bool.and_eq_true, Bool.not_eq_true',
    decide_eq_true_eq] at h
  obtain ⟨⟨⟨⟨hf, ha⟩, hs⟩, hn⟩, hc⟩ := h
  refine ⟨?_, hc⟩
  simp only [attnStep, loopStep, strikePhase_lastNudge, hystPhase_lastNudge]
  unfold nudgePhase
  simp only [scorePhase_finalStrike, scorePhase_armedFinal, scorePhase_nudges,
    scorePhase_lastNudge]
  rw [if_pos ⟨hf, ha, hs, hn⟩, if_pos hc]
  split_ifs <;> rfl

theorem attnStep_lastNudge_mono (cfg : AttnCfg) (st : AttnState) (i : AttnInput)
    (h0 : 0 ≤ cfg.nudgeCooldownMs) :
    st.lastNudge ≤ (attnStep cfg st i).lastNudge := by
  cases i with
  | tick now s =>
      simp only [attnStep, loopStep, strikePhase_lastNudge, hystPhase_lastNudge]
      unfold nudgePhase
      simp only [scorePhase_finalStrike, scorePhase_armedFinal,
        scorePhase_nudges, scorePhase_lastNudge]
      split_ifs with h1 h2 h3
      · show st.lastNudge ≤ now
        linarith
      · show st.lastNudge ≤ now
        linarith
      · exact le_refl _
      · exact le_refl _
  | keydown now m c a =>
      simp only [attnStep]
      split_ifs <;> exact le_refl _
  | inputEvt now => exact le_refl _
  | mousemove now => exact le_refl _
  | mousedown now => exact le_refl _
  | wheel now => exact le_refl _
  | selectionchange now => exact le_refl _
  | nudgeHideTimeout => exact le_refl _

theorem foldl_lastNudge_mono (cfg : AttnCfg) (l : List AttnInput)
    (h0 : 0 ≤ cfg.nudgeCooldownMs) :
    ∀ st : AttnState,
      st.lastNudge ≤ (List.foldl (attnStep cfg) st l).lastNudge := by
  induction l with
  | nil => intro st; exact le_refl _
  | cons i rest ih =>
      intro st
      exact le_trans (attnStep_lastNudge_mono cfg st i h0)
        (ih (attnStep cfg st i))

/-- C4 counterexample: in the second variant, the stale closure read of
`nudges` (frozen at 0) passes the `nudges < maxNudges` guard on every frame,
so under sustained low score a nudge fires at every cooldown boundary and
the counter exceeds `maxNudges = 2`. -/
theorem variant2_nudges_exceed_max :
    (attnRun2 attnDefaults2
        [AttnInput.tick 16000 (3/10), AttnInput.tick 32000 (3/10),
         AttnInput.tick 48000 (3/10)]).nudges = 3 ∧
    attnDefaults2.maxNudges = 2 := by
  constructor
  · norm_num [attnRun2, attnStep2, loopStep2, nudgePhase2, hystPhase,
      strikePhase2, scorePhase2, initAttn, initFrozen, frozenOf, attnDefaults2]
  · rfl

/-- C4 amended: in the ref-based variant the nudge counter never exceeds
`maxNudges`, and (for a nonnegative cooldown, as configured) in both
variants whenever a frame emits a nudge and a later frame emits another,
the two emission times are more than `nudgeCooldownMs` apart; in the second
variant the stale closure read of the counter lets it grow past
`maxNudges`, so only the cooldown half holds there. -/
theorem nudge_bound_and_cooldown (cfg : AttnCfg) :
    (∀ l, (attnRun cfg l).nudges ≤ cfg.maxNudges) ∧
    (0 ≤ cfg.nudgeCooldownMs →
      ∀ (pre mid : List AttnInput) (now1 s1 now2 s2 : ℚ),
        emitsNudge cfg (attnRun cfg pre) now1 s1 = true →
        emitsNudge cfg (attnRun cfg (pre ++ AttnInput.tick now1 s1 :: mid))
          now2 s2 = true →
        now2 - now1 > cfg.nudgeCooldownMs) ∧
    (0 ≤ cfg.nudgeCooldownMs →
      ∀ (pre mid : List AttnInput) (now1 s1 now2 s2 : ℚ),
        emitsNudge2 cfg initFrozen (attnRun2 cfg pre) now1 s1 = true →
        emitsNudge2 cfg initFrozen
          (attnRun2 cfg (pre ++ AttnInput.tick now1 s1 :: mid)) now2 s2
          = true →
        now2 - now1 > cfg.nudgeCooldownMs) := by
  refine ⟨?_, ?_, ?_⟩
  · intro l
    exact foldl_nudges_le cfg l initAttn (Nat.zero_le _)
  · intro h0 pre mid now1 s1 now2 s2 h1 h2
    have e1 := emitsNudge_step cfg (attnRun cfg pre) now1 s1 h1
    have hrun : attnRun cfg (pre ++ AttnInput.tick now1 s1 :: mid)
        = List.foldl (attnStep cfg)
            (attnStep cfg (attnRun cfg pre) (AttnInput.tick now1 s1)) mid := by
      simp [attnRun, List.foldl_append]
    have hmono := foldl_lastNudge_mono cfg mid h0
      (attnStep cfg (attnRun cfg pre) (AttnInput.tick now1 s1))
    rw [e1.1] at hmono
    have e2 := emitsNudge_step cfg
      (attnRun cfg (pre ++ AttnInput.tick now1 s1 :: mid)) now2 s2 h2
    rw [hrun] at e2
    have := e2.2
    linarith
  · intro h0 pre mid now1 s1 now2 s2 h1 h2
    have e1 := emitsNudge2_step cfg initFrozen (attnRun2 cfg pre) now1 s1 h1
    have hrun : attnRun2 cfg (pre ++ AttnInput.tick now1 s1 :: mid)
        = List.foldl (attnStep2 cfg initFrozen)
            (attnStep2 cfg initFrozen (attnRun2 cfg pre)
              (AttnInput.tick now1 s1)) mid := by
      simp [attnRun2, List.foldl_append]
    have hmono := foldl2_lastNudge_mono cfg initFrozen mid h0
      (attnStep2 cfg initFrozen (attnRun2 cfg pre) (AttnInput.tick now1 s1))
    rw [e1.1] at hmono
    have e2 := emitsNudge2_step cfg initFrozen
      (attnRun2 cfg (pre ++ AttnInput.tick now1 s1 :: mid)) now2 s2 h2
    rw [hrun] at e2
    have := e2.2
    linarith

/-- C4 witness: with the second variant's defaults, in both variants a
first nudge at time 16000 and the next at 32000 are more than the 15000ms
cooldown apart. -/
theorem nudge_bound_and_cooldown_witness :
    ((0:ℚ) ≤ attnDefaults2.nudgeCooldownMs ∧
      emitsNudge attnDefaults2 (attnRun attnDefaults2 []) 16000 (3/10) = true ∧
      emitsNudge attnDefaults2
        (attnRun attnDefaults2 [AttnInput.tick 16000 (3/10)]) 32000 (3/10)
        = true ∧
      emitsNudge2 attnDefaults2 initFrozen (attnRun2 attnDefaults2 []) 16000
        (3/10) = true ∧
      emitsNudge2 attnDefaults2 initFrozen
        (attnRun2 attnDefaults2 [AttnInput.tick 16000 (3/10)]) 32000 (3/10)
        = true) ∧
    (32000 : ℚ) - 16000 > attnDefaults2.nudgeCooldownMs ∧
    (32000 : ℚ) - 16000 > attnDefaults2.nudgeCooldownMs := by
  have hemit1 : emitsNudge attnDefaults2 (attnRun attnDefaults2 []) 16000 (3/10)
      = true := by
    norm_num [emitsNudge, attnRun, initAttn, attnDefaults2]
  have hemit2 : emitsNudge attnDefaults2
      (attnRun attnDefaults2 [AttnInput.tick 16000 (3/10)]) 32000 (3/10)
      = true := by
    norm_num [emitsNudge, attnRun, attnStep, loopStep, nudgePhase, hystPhase,
      strikePhase, scorePhase, initAttn, attnDefaults2]
  have hemit3 : emitsNudge2 attnDefaults2 initFrozen (attnRun2 attnDefaults2 [])
      16000 (3/10) = true := by
    norm_num [emitsNudge2, attnRun2, initAttn, initFrozen, frozenOf,
      attnDefaults2]
  have hemit4 : emitsNudge2 attnDefaults2 initFrozen
      (attnRun2 attnDefaults2 [AttnInput.tick 16000 (3/10)]) 32000 (3/10)
      = true := by
    norm_num [emitsNudge2, attnRun2, attnStep2, loopStep2, nudgePhase2,
      hystPhase, strikePhase2, scorePhase2, initAttn, initFrozen, frozenOf,
      attnDefaults2]
  refine ⟨⟨by norm_num [attnDefaults2], hemit1, hemit2, hemit3, hemit4⟩, ?_, ?_⟩
  · exact (nudge_bound_and_cooldown attnDefaults2).2.1
      (by norm_num [attnDefaults2]) [] [] 16000 (3/10) 32000 (3/10) hemit1
      (by simpa using hemit2)
  · exact (nudge_bound_and_cooldown attnDefaults2).2.2
      (by norm_num [attnDefaults2]) [] [] 16000 (3/10) 32000 (3/10) hemit3
      (by simpa using hemit4)

theorem attnStep_armed_mono (cfg : AttnCfg) (st : AttnState) (i : AttnInput)
    (h : st.armedFinal = true) : (attnStep cfg st i).armedFinal = true := by
  cases i with
  | tick now s =>
      simp only [attnStep, loopStep]
      unfold strikePhase hystPhase nudgePhase scorePhase
      split_ifs <;> simp_all
  | keydown now m c a =>
      simp only [attnStep]
      split_ifs <;> simp_all [markActive]
  | inputEvt now => exact h
  | mousemove now => exact h
  | mousedown now => exact h
  | wheel now => exact h
  | selectionchange now => exact h
  | nudgeHideTimeout => exact h

theorem attnStep_armed_flip_iff (cfg : AttnCfg) (st : AttnState) (i : AttnInput) :
    ((attnStep cfg st i).armedFinal = true ∧ st.armedFinal = false) ↔
      ((attnStep cfg st i).nudges = cfg.maxNudges ∧
        st.nudges < cfg.maxNudges) := by
  cases i with
  | tick now s =>
      simp only [attnStep, loopStep]
      unfold strikePhase hystPhase nudgePhase scorePhase
      split_ifs with h1 h2 h3 <;> simp_all <;> omega
  | keydown now m c a =>
      simp only [attnStep]
      split_ifs <;> simp [markActive] <;> omega
  | inputEvt now => simp [attnStep, markActive]; omega
  | mousemove now => simp [attnStep, markActive]; omega
  | mousedown now => simp [attnStep, markActive]; omega
  | wheel now => simp [attnStep, markActive]; omega
  | selectionchange now => simp [attnStep, markActive]; omega
  | nudgeHideTimeout => simp [attnStep]; omega

theorem attnStep2_armed_flip (cfg : AttnCfg) (st : AttnState) (i : AttnInput)
    (ha : (attnStep2 cfg initFrozen st i).armedFinal = true)
    (hb : st.armedFinal = false) :
    cfg.maxNudges ≤ 1 ∧ ∃ now s, i = AttnInput.tick now s ∧
      emitsNudge2 cfg initFrozen st now s = true := by
  cases i with
  | tick now s =>
      revert ha
      simp only [attnStep2, loopStep2, strikePhase2_armedFinal,
        hystPhase_armedFinal]
      unfold nudgePhase2
      simp only [scorePhase2_armedFinal, scorePhase2_lastNudge]
      split_ifs with h1 h2 h3
      · intro _
        constructor
        · have h0 : initFrozen.nudges = 0 := rfl
          omega
        · refine ⟨now, s, rfl, ?_⟩
          simp only [emitsNudge2, Bool.and_eq_true, Bool.not_eq_true',
            decide_eq_true_eq]
          exact ⟨⟨⟨⟨h1.1, h1.2.1⟩, h1.2.2.1⟩, h1.2.2.2⟩, h2⟩
      · intro hcc
        simp_all
      · intro hcc
        simp_all
      · intro hcc
        simp_all
  | keydown now m c a =>
      exfalso
      revert ha
      simp only [attnStep2]
      split_ifs <;> simp_all [markActive]
  | inputEvt now => exfalso; simp_all [attnStep2, markActive]
  | mousemove now => exfalso; simp_all [attnStep2, markActive]
  | mousedown now => exfalso; simp_all [attnStep2, markActive]
  | wheel now => exfalso; simp_all [attnStep2, markActive]
  | selectionchange now => exfalso; simp_all [attnStep2, markActive]
  | nudgeHideTimeout => exfalso; simp_all [attnStep2]

theorem attnStep2_emission_arms (cfg : AttnCfg) (st : AttnState) (now s : ℚ)
    (hmax : cfg.maxNudges ≤ 1)
    (h : emitsNudge2 cfg initFrozen st now s = true) :
    (attnStep2 cfg initFrozen st (AttnInput.tick now s)).armedFinal = true := by
  simp only [emitsNudge2, Bool.and_eq_true, Bool.not_eq_true',
    decide_eq_true_eq] at h
  obtain ⟨⟨⟨⟨hf, ha⟩, hs⟩, hn⟩, hc⟩ := h
  simp only [attnStep2, loopStep2, strikePhase2_armedFinal, hystPhase_armedFinal]
  unfold nudgePhase2
  simp only [scorePhase2_armedFinal, scorePhase2_lastNudge]
  have h0 : initFrozen.nudges = 0 := rfl
  rw [if_pos ⟨hf, ha, hs, hn⟩, if_pos hc, if_pos (by omega)]

theorem attnStep2_armed_stays_false (cfg : AttnCfg) (st : AttnState)
    (i : AttnInput) (hmax : 2 ≤ cfg.maxNudges) (h : st.armedFinal = false) :
    (attnStep2 cfg initFrozen st i).armedFinal = false := by
  cases i with
  | tick now s =>
      simp only [attnStep2, loopStep2, strikePhase2_armedFinal,
        hystPhase_armedFinal]
      unfold nudgePhase2
      simp only [scorePhase2_armedFinal, scorePhase2_lastNudge]
      split_ifs with h1 h2 h3
      · exfalso
        have h0 : initFrozen.nudges = 0 := rfl
        omega
      · exact h
      · exact h
      · exact h
  | keydown now m c a =>
      simp only [attnStep2]
      split_ifs <;> exact h
  | inputEvt now => exact h
  | mousemove now => exact h
  | mousedown now => exact h
  | wheel now => exact h
  | selectionchange now => exact h
  | nudgeHideTimeout => exact h

theorem foldl2_armed_false (cfg : AttnCfg) (l : List AttnInput)
    (hmax : 2 ≤ cfg.maxNudges) :
    ∀ st : AttnState, st.armedFinal = false →
      (List.foldl (attnStep2 cfg initFrozen) st l).armedFinal = false := by
  induction l with
  | nil => intro st h; exact h
  | cons i rest ih =>
      intro st h
      exact ih (attnStep2 cfg initFrozen st i)
        (attnStep2_armed_stays_false cfg st i hmax h)

/-- C5 counterexample: in the second variant with its defaults
(`maxNudges = 2`), the arming check reads the stale closure `nudges`
(frozen at 0), so `0 + 1 >= 2` never holds: the counter reaches
`maxNudges` without the final warning arming. -/
theorem variant2_counter_reaches_max_without_arming :
    (attnRun2 attnDefaults2
        [AttnInput.tick 16000 (3/10), AttnInput.tick 32000 (3/10)]).nudges
      = attnDefaults2.maxNudges ∧
    (attnRun2 attnDefaults2
        [AttnInput.tick 16000 (3/10), AttnInput.tick 32000 (3/10)]).armedFinal
      = false := by
  constructor
  · norm_num [attnRun2, attnStep2, loopStep2, nudgePhase2, hystPhase,
      strikePhase2, scorePhase2, initAttn, initFrozen, frozenOf, attnDefaults2]
  · norm_num [attnRun2, attnStep2, loopStep2, nudgePhase2, hystPhase,
      strikePhase2, scorePhase2, initAttn, initFrozen, frozenOf, attnDefaults2]

/-- C5 amended: in the ref-based variant, the final warning flag is
monotone (armed at most once per session) and along any run it flips from
false to true at exactly the step at which the nudge counter reaches
`maxNudges`.  In the second variant the flag is still monotone, but the
arming check reads the stale closure `nudges` (frozen at 0): the flag can
flip only at a nudge-emitting frame and only when `maxNudges ≤ 1`, and
conversely with `maxNudges ≤ 1` every nudge-emitting frame arms it — so for
`maxNudges ≥ 2` the counter reaches `maxNudges` without arming. -/
theorem final_warning_arms_once_at_max (cfg : AttnCfg) (l : List AttnInput)
    (i : AttnInput) :
    ((attnRun cfg l).armedFinal = true →
      (attnRun cfg (l ++ [i])).armedFinal = true) ∧
    (((attnRun cfg (l ++ [i])).armedFinal = true ∧
        (attnRun cfg l).armedFinal = false) ↔
      ((attnRun cfg (l ++ [i])).nudges = cfg.maxNudges ∧
        (attnRun cfg l).nudges < cfg.maxNudges)) ∧
    ((attnRun2 cfg l).armedFinal = true →
      (attnRun2 cfg (l ++ [i])).armedFinal = true) ∧
    (((attnRun2 cfg (l ++ [i])).armedFinal = true ∧
        (attnRun2 cfg l).armedFinal = false) →
      cfg.maxNudges ≤ 1 ∧ ∃ now s, i = AttnInput.tick now s ∧
        emitsNudge2 cfg initFrozen (attnRun2 cfg l) now s = true) ∧
    (∀ now s : ℚ, cfg.maxNudges ≤ 1 →
      emitsNudge2 cfg initFrozen (attnRun2 cfg l) now s = true →
      (attnRun2 cfg (l ++ [AttnInput.tick now s])).armedFinal = true) := by
  simp only [attnRun_append, attnRun2_append]
  refine ⟨attnStep_armed_mono cfg (attnRun cfg l) i,
    attnStep_armed_flip_iff cfg (attnRun cfg l) i,
    attnStep2_armed_mono cfg initFrozen (attnRun2 cfg l) i, ?_, ?_⟩
  · rintro ⟨ha, hb⟩
    exact attnStep2_armed_flip cfg (attnRun2 cfg l) i ha hb
  · intro now s hmax he
    exact attnStep2_emission_arms cfg (attnRun2 cfg l) now s hmax he

/-- C5 witness: with the second variant's defaults (`maxNudges = 2`), in
the ref-based variant the second nudge arms the final warning exactly when
the counter reaches 2 and arming persists; and with `maxNudges = 1` a
nudge-emitting second-variant frame arms the flag. -/
theorem final_warning_arms_once_at_max_witness :
    ((attnRun attnDefaults2
        ([AttnInput.tick 16000 (3/10)] ++ [AttnInput.tick 32000 (3/10)])).armedFinal
          = true ∧
      (attnRun attnDefaults2 [AttnInput.tick 16000 (3/10)]).armedFinal = false) ∧
    ((attnRun attnDefaults2
        ([AttnInput.tick 16000 (3/10)] ++ [AttnInput.tick 32000 (3/10)])).nudges
          = attnDefaults2.maxNudges ∧
      (attnRun attnDefaults2 [AttnInput.tick 16000 (3/10)]).nudges
          < attnDefaults2.maxNudges) ∧
    ((attnRun attnDefaults2
        (([AttnInput.tick 16000 (3/10)] ++ [AttnInput.tick 32000 (3/10)])
          ++ [AttnInput.tick 33000 (3/10)])).armedFinal = true) ∧
    ({ attnDefaults2 with maxNudges := 1 }.maxNudges ≤ 1 ∧
      emitsNudge2 { attnDefaults2 with maxNudges := 1 } initFrozen
        (attnRun2 { attnDefaults2 with maxNudges := 1 } []) 16000 (3/10)
        = true) ∧
    (attnRun2 { attnDefaults2 with maxNudges := 1 }
        ([] ++ [AttnInput.tick 16000 (3/10)])).armedFinal = true := by
  have h1 : (attnRun attnDefaults2
      ([AttnInput.tick 16000 (3/10)] ++ [AttnInput.tick 32000 (3/10)])).armedFinal
        = true ∧
      (attnRun attnDefaults2 [AttnInput.tick 16000 (3/10)]).armedFinal = false := by
    constructor
    · norm_num [attnRun, attnStep, loopStep, nudgePhase, hystPhase, strikePhase,
        scorePhase, initAttn, attnDefaults2]
    · norm_num [attnRun, attnStep, loopStep, nudgePhase, hystPhase, strikePhase,
        scorePhase, initAttn, attnDefaults2]
  have hm : ({ attnDefaults2 with maxNudges := 1 } : AttnCfg).maxNudges ≤ 1 := by
    norm_num [attnDefaults2]
  have he : emitsNudge2 { attnDefaults2 with maxNudges := 1 } initFrozen
      (attnRun2 { attnDefaults2 with maxNudges := 1 } []) 16000 (3/10)
      = true := by
    norm_num [emitsNudge2, attnRun2, initAttn, initFrozen, frozenOf,
      attnDefaults2]
  refine ⟨h1, ?_, ?_, ⟨hm, he⟩, ?_⟩
  · exact (final_warning_arms_once_at_max attnDefaults2
      [AttnInput.tick 16000 (3/10)] (AttnInput.tick 32000 (3/10))).2.1.mp h1
  · exact (final_warning_arms_once_at_max attnDefaults2
      ([AttnInput.tick 16000 (3/10)] ++ [AttnInput.tick 32000 (3/10)])
      (AttnInput.tick 33000 (3/10))).1 h1.1
  · exact (final_warning_arms_once_at_max { attnDefaults2 with maxNudges := 1 }
      [] AttnInput.nudgeHideTimeout).2.2.2.2 16000 (3/10) hm he

theorem attnStep_strike_mono (cfg : AttnCfg) (st : AttnState) (i : AttnInput)
    (h : st.finalStrike = true) : (attnStep cfg st i).finalStrike = true := by
  cases i with
  | tick now s =>
      simp only [attnStep, loopStep]
      unfold strikePhase hystPhase nudgePhase scorePhase
      split_ifs <;> simp_all
  | keydown now m c a =>
      simp only [attnStep]
      split_ifs <;> simp_all [markActive]
  | inputEvt now => exact h
  | mousemove now => exact h
  | mousedown now => exact h
  | wheel now => exact h
  | selectionchange now => exact h
  | nudgeHideTimeout => exact h

theorem attnStep_strike_imp_armed (cfg : AttnCfg) (st : AttnState)
    (i : AttnInput) (h : st.finalStrike = true → st.armedFinal = true) :
    (attnStep cfg st i).finalStrike = true →
      (attnStep cfg st i).armedFinal = true := by
  cases i with
  | tick now s =>
      simp only [attnStep, loopStep]
      unfold strikePhase hystPhase nudgePhase scorePhase
      split_ifs <;> simp_all
  | keydown now m c a =>
      simp only [attnStep]
      split_ifs <;> simp_all [markActive]
  | inputEvt now => exact h
  | mousemove now => exact h
  | mousedown now => exact h
  | wheel now => exact h
  | selectionchange now => exact h
  | nudgeHideTimeout => exact h

theorem foldl_strike_imp_armed (cfg : AttnCfg) (l : List AttnInput) :
    ∀ st : AttnState, (st.finalStrike = true → st.armedFinal = true) →
      (List.foldl (attnStep cfg) st l).finalStrike = true →
        (List.foldl (attnStep cfg) st l).armedFinal = true := by
  induction l with
  | nil => intro st h; exact h
  | cons i rest ih =>
      intro st h
      exact ih (attnStep cfg st i) (attnStep_strike_imp_armed cfg st i h)

/-- C6: in either variant, a strike can only be present once the final
warning has been armed (so the strike flag is false at every step before
arming), and the strike flag is monotone: once true it stays true for the
rest of the session. -/
theorem strike_gated_and_terminal (cfg : AttnCfg) (l : List AttnInput)
    (i : AttnInput) :
    ((attnRun cfg l).finalStrike = true → (attnRun cfg l).armedFinal = true) ∧
    ((attnRun cfg l).finalStrike = true →
      (attnRun cfg (l ++ [i])).finalStrike = true) ∧
    ((attnRun2 cfg l).finalStrike = true → (attnRun2 cfg l).armedFinal = true) ∧
    ((attnRun2 cfg l).finalStrike = true →
      (attnRun2 cfg (l ++ [i])).finalStrike = true) := by
  simp only [attnRun_append, attnRun2_append]
  have hinv := foldl_strike_imp_armed cfg l initAttn (fun h => by cases h)
  have hinv2 := foldl2_strike_imp_armed cfg initFrozen l initAttn
    (fun h => by cases h)
  exact ⟨hinv, attnStep_strike_mono cfg (attnRun cfg l) i, hinv2,
    attnStep2_strike_mono cfg initFrozen (attnRun2 cfg l) i⟩

/-- C6 witness: a session of the second variant in which the strike fires
(two nudges, recovery above `finalThreshold + 0.08`, then a dip): the struck
state is armed, and the strike survives a further frame. -/
theorem strike_gated_and_terminal_witness :
    (attnRun attnDefaults2
        [AttnInput.tick 16000 (3/10), AttnInput.tick 32000 (3/10),
         AttnInput.tick 33000 (1/2), AttnInput.tick 34000 (3/10)]).finalStrike
      = true ∧
    (attnRun attnDefaults2
        [AttnInput.tick 16000 (3/10), AttnInput.tick 32000 (3/10),
         AttnInput.tick 33000 (1/2), AttnInput.tick 34000 (3/10)]).armedFinal
      = true ∧
    (attnRun attnDefaults2
        ([AttnInput.tick 16000 (3/10), AttnInput.tick 32000 (3/10),
          AttnInput.tick 33000 (1/2), AttnInput.tick 34000 (3/10)]
          ++ [AttnInput.tick 35000 (1/2)])).finalStrike = true := by
  have hstrike : (attnRun attnDefaults2
      [AttnInput.tick 16000 (3/10), AttnInput.tick 32000 (3/10),
       AttnInput.tick 33000 (1/2), AttnInput.tick 34000 (3/10)]).finalStrike
        = true := by
    norm_num [attnRun, attnStep, loopStep, nudgePhase, hystPhase, strikePhase,
      scorePhase, initAttn, attnDefaults2]
  exact ⟨hstrike,
    (strike_gated_and_terminal attnDefaults2
      [AttnInput.tick 16000 (3/10), AttnInput.tick 32000 (3/10),
       AttnInput.tick 33000 (1/2), AttnInput.tick 34000 (3/10)]
      (AttnInput.tick 35000 (1/2))).1 hstrike,
    (strike_gated_and_terminal attnDefaults2
      [AttnInput.tick 16000 (3/10), AttnInput.tick 32000 (3/10),
       AttnInput.tick 33000 (1/2), AttnInput.tick 34000 (3/10)]
      (AttnInput.tick 35000 (1/2))).2.1 hstrike⟩

theorem tick_strike_requires (cfg : AttnCfg) (st : AttnState) (now s : ℚ)
    (h : (loopStep cfg st now s).finalStrike = true) :
    st.finalStrike = true ∨ (st.armedFinal = true ∧ st.hysteresisOk = true) ∨
      tickRecovery cfg st now s = true := by
  revert h
  simp only [loopStep, tickRecovery, Bool.and_eq_true, decide_eq_true_eq]
  unfold strikePhase hystPhase nudgePhase scorePhase
  split_ifs <;> simp_all

theorem tick_armedOk_requires (cfg : AttnCfg) (st : AttnState) (now s : ℚ)
    (ha : (loopStep cfg st now s).armedFinal = true)
    (hk : (loopStep cfg st now s).hysteresisOk = true) :
    (st.armedFinal = true ∧ st.hysteresisOk = true) ∨
      tickRecovery cfg st now s = true := by
  revert ha hk
  simp only [loopStep, tickRecovery, Bool.and_eq_true, decide_eq_true_eq]
  unfold strikePhase hystPhase nudgePhase scorePhase
  split_ifs <;> simp_all

theorem event_preserves_flags (cfg : AttnCfg) (st : AttnState) (i : AttnInput)
    (hne : ∀ now s : ℚ, i ≠ AttnInput.tick now s) :
    (attnStep cfg st i).finalStrike = st.finalStrike ∧
      (attnStep cfg st i).armedFinal = st.armedFinal ∧
      (attnStep cfg st i).hysteresisOk = st.hysteresisOk := by
  cases i with
  | tick now s => exact absurd rfl (hne now s)
  | keydown now m c a =>
      simp only [attnStep]
      split_ifs <;> exact ⟨rfl, rfl, rfl⟩
  | inputEvt now => exact ⟨rfl, rfl, rfl⟩
  | mousemove now => exact ⟨rfl, rfl, rfl⟩
  | mousedown now => exact ⟨rfl, rfl, rfl⟩
  | wheel now => exact ⟨rfl, rfl, rfl⟩
  | selectionchange now => exact ⟨rfl, rfl, rfl⟩
  | nudgeHideTimeout => exact ⟨rfl, rfl, rfl⟩

theorem foldl_strike_requires_recovery (cfg : AttnCfg) (l : List AttnInput) :
    ∀ st : AttnState, (List.foldl (attnStep cfg) st l).finalStrike = true →
      st.finalStrike = true ∨ (st.armedFinal = true ∧ st.hysteresisOk = true) ∨
        recOcc cfg st l = true := by
  induction l with
  | nil => intro st h; exact Or.inl h
  | cons i rest ih =>
      intro st h
      rcases ih (attnStep cfg st i) h with h1 | h2 | h3
      · cases i with
        | tick now s =>
            rcases tick_strike_requires cfg st now s h1 with g | g | g
            · exact Or.inl g
            · exact Or.inr (Or.inl g)
            · refine Or.inr (Or.inr ?_)
              simp [recOcc, g]
        | keydown now m c a =>
            have := (event_preserves_flags cfg st (AttnInput.keydown now m c a)
              (by intro now' s' hne; cases hne)).1
            rw [this] at h1
            exact Or.inl h1
        | inputEvt now => exact Or.inl h1
        | mousemove now => exact Or.inl h1
        | mousedown now => exact Or.inl h1
        | wheel now => exact Or.inl h1
        | selectionchange now => exact Or.inl h1
        | nudgeHideTimeout => exact Or.inl h1
      · cases i with
        | tick now s =>
            rcases tick_armedOk_requires cfg st now s h2.1 h2.2 with g | g
            · exact Or.inr (Or.inl g)
            · refine Or.inr (Or.inr ?_)
              simp [recOcc, g]
        | keydown now m c a =>
            have hp := event_preserves_flags cfg st (AttnInput.keydown now m c a)
              (by intro now' s' hne; cases hne)
            rw [hp.2.1, hp.2.2] at h2
            exact Or.inr (Or.inl h2)
        | inputEvt now => exact Or.inr (Or.inl h2)
        | mousemove now => exact Or.inr (Or.inl h2)
        | mousedown now => exact Or.inr (Or.inl h2)
        | wheel now => exact Or.inr (Or.inl h2)
        | selectionchange now => exact Or.inr (Or.inl h2)
        | nudgeHideTimeout => exact Or.inr (Or.inl h2)
      · refine Or.inr (Or.inr ?_)
        simp [recOcc, h3]


theorem tick2_strike_requires (cfg : AttnCfg) (st : AttnState) (now s : ℚ)
    (h : (loopStep2 cfg initFrozen st now s).finalStrike = true) :
    st.finalStrike = true ∨ (st.armedFinal = true ∧ st.hysteresisOk = true) ∨
      tickRecovery2 cfg st now s = true := by
  revert h
  simp only [loopStep2, tickRecovery2, Bool.and_eq_true, decide_eq_true_eq]
  unfold strikePhase2 hystPhase nudgePhase2 scorePhase2
  split_ifs <;> simp_all

theorem tick2_armedOk_requires (cfg : AttnCfg) (st : AttnState) (now s : ℚ)
    (ha : (loopStep2 cfg initFrozen st now s).armedFinal = true)
    (hk : (loopStep2 cfg initFrozen st now s).hysteresisOk = true) :
    (st.armedFinal = true ∧ st.hysteresisOk = true) ∨
      tickRecovery2 cfg st now s = true := by
  revert ha hk
  simp only [loopStep2, tickRecovery2, Bool.and_eq_true, decide_eq_true_eq]
  unfold strikePhase2 hystPhase nudgePhase2 scorePhase2
  split_ifs <;> simp_all

theorem event2_preserves_flags (cfg : AttnCfg) (fz : AttnFrozen)
    (st : AttnState) (i : AttnInput)
    (hne : ∀ now s : ℚ, i ≠ AttnInput.tick now s) :
    (attnStep2 cfg fz st i).finalStrike = st.finalStrike ∧
      (attnStep2 cfg fz st i).armedFinal = st.armedFinal ∧
      (attnStep2 cfg fz st i).hysteresisOk = st.hysteresisOk := by
  cases i with
  | tick now s => exact absurd rfl (hne now s)
  | keydown now m c a =>
      simp only [attnStep2]
      split_ifs <;> exact ⟨rfl, rfl, rfl⟩
  | inputEvt now => exact ⟨rfl, rfl, rfl⟩
  | mousemove now => exact ⟨rfl, rfl, rfl⟩
  | mousedown now => exact ⟨rfl, rfl, rfl⟩
  | wheel now => exact ⟨rfl, rfl, rfl⟩
  | selectionchange now => exact ⟨rfl, rfl, rfl⟩
  | nudgeHideTimeout => exact ⟨rfl, rfl, rfl⟩

theorem foldl2_strike_requires_recovery (cfg : AttnCfg) (l : List AttnInput) :
    ∀ st : AttnState,
      (List.foldl (attnStep2 cfg initFrozen) st l).finalStrike = true →
      st.finalStrike = true ∨ (st.armedFinal = true ∧ st.hysteresisOk = true) ∨
        recOcc2 cfg st l = true := by
  induction l with
  | nil => intro st h; exact Or.inl h
  | cons i rest ih =>
      intro st h
      rcases ih (attnStep2 cfg initFrozen st i) h with h1 | h2 | h3
      · cases i with
        | tick now s =>
            rcases tick2_strike_requires cfg st now s h1 with g | g | g
            · exact Or.inl g
            · exact Or.inr (Or.inl g)
            · refine Or.inr (Or.inr ?_)
              simp [recOcc2, g]
        | keydown now m c a =>
            have := (event2_preserves_flags cfg initFrozen st
              (AttnInput.keydown now m c a)
              (by intro now' s' hne; cases hne)).1
            rw [this] at h1
            exact Or.inl h1
        | inputEvt now => exact Or.inl h1
        | mousemove now => exact Or.inl h1
        | mousedown now => exact Or.inl h1
        | wheel now => exact Or.inl h1
        | selectionchange now => exact Or.inl h1
        | nudgeHideTimeout => exact Or.inl h1
      · cases i with
        | tick now s =>
            rcases tick2_armedOk_requires cfg st now s h2.1 h2.2 with g | g
            · exact Or.inr (Or.inl g)
            · refine Or.inr (Or.inr ?_)
              simp [recOcc2, g]
        | keydown now m c a =>
            have hp := event2_preserves_flags cfg initFrozen st
              (AttnInput.keydown now m c a)
              (by intro now' s' hne; cases hne)
            rw [hp.2.1, hp.2.2] at h2
            exact Or.inr (Or.inl h2)
        | inputEvt now => exact Or.inr (Or.inl h2)
        | mousemove now => exact Or.inr (Or.inl h2)
        | mousedown now => exact Or.inr (Or.inl h2)
        | wheel now => exact Or.inr (Or.inl h2)
        | selectionchange now => exact Or.inr (Or.inl h2)
        | nudgeHideTimeout => exact Or.inr (Or.inl h2)
      · refine Or.inr (Or.inr ?_)
        simp [recOcc2, h3]

theorem syncRel_init : syncRel initAttn initAttn := by
  exact ⟨fun h => h, fun _ => ⟨rfl, rfl, rfl, rfl, rfl, rfl⟩⟩

theorem nudgePhase_armed_stays (cfg : AttnCfg) (st : AttnState) (now s : ℚ)
    (h : st.armedFinal = true) :
    (nudgePhase cfg st now s).armedFinal = true := by
  unfold nudgePhase
  split_ifs <;> simp_all

theorem tickRecovery2_imp_tickRecovery (cfg : AttnCfg) (st1 st2 : AttnState)
    (now s : ℚ) (hr : syncRel st1 st2)
    (h : tickRecovery2 cfg st2 now s = true) :
    tickRecovery cfg st1 now s = true := by
  simp only [tickRecovery2, tickRecovery, Bool.and_eq_true,
    decide_eq_true_eq] at h ⊢
  obtain ⟨harm, hs⟩ := h
  refine ⟨?_, hs⟩
  by_cases h2 : st2.armedFinal = true
  · exact nudgePhase_armed_stays cfg (scorePhase st1 s) now s
      (by simpa using hr.1 h2)
  · obtain ⟨ha1, hf1, hf2, hn1, hn2, hl⟩ :=
      hr.2 (by simpa using h2)
    revert harm
    unfold nudgePhase2
    simp only [scorePhase2_armedFinal, scorePhase2_lastNudge]
    have h0 : initFrozen.nudges = 0 := rfl
    split_ifs with g1 g2 g3
    · intro _
      unfold nudgePhase
      simp only [scorePhase_finalStrike, scorePhase_armedFinal,
        scorePhase_nudges, scorePhase_lastNudge]
      rw [if_pos ⟨hf1, ha1, g1.2.2.1, by omega⟩,
        if_pos (by rw [hl]; exact g2), if_pos (by omega)]
    · intro hcc
      simp_all
    · intro hcc
      simp_all
    · intro hcc
      simp_all

theorem tick_frame_v1 (cfg : AttnCfg) (st : AttnState) (now s : ℚ)
    (harm : st.armedFinal = false)
    (hnf : ¬(s < cfg.nudgeThreshold ∧ st.nudges < cfg.maxNudges ∧
      now - st.lastNudge > cfg.nudgeCooldownMs)) :
    (attnStep cfg st (AttnInput.tick now s)).armedFinal = false ∧
    (attnStep cfg st (AttnInput.tick now s)).finalStrike = st.finalStrike ∧
    (attnStep cfg st (AttnInput.tick now s)).nudges = st.nudges ∧
    (attnStep cfg st (AttnInput.tick now s)).lastNudge = st.lastNudge := by
  simp only [attnStep, loopStep]
  unfold strikePhase hystPhase nudgePhase scorePhase
  split_ifs <;> simp_all

theorem tick_frame_v2 (cfg : AttnCfg) (st : AttnState) (now s : ℚ)
    (harm : st.armedFinal = false)
    (hnf : ¬(s < cfg.nudgeThreshold ∧ 0 < cfg.maxNudges ∧
      now - st.lastNudge > cfg.nudgeCooldownMs)) :
    (attnStep2 cfg initFrozen st (AttnInput.tick now s)).armedFinal = false ∧
    (attnStep2 cfg initFrozen st (AttnInput.tick now s)).finalStrike
      = st.finalStrike ∧
    (attnStep2 cfg initFrozen st (AttnInput.tick now s)).nudges = st.nudges ∧
    (attnStep2 cfg initFrozen st (AttnInput.tick now s)).lastNudge
      = st.lastNudge := by
  simp only [attnStep2, loopStep2]
  unfold strikePhase2 hystPhase nudgePhase2 scorePhase2
  split_ifs <;> simp_all [initFrozen, frozenOf, initAttn]

theorem tick_fire_arms_v1 (cfg : AttnCfg) (st : AttnState) (now s : ℚ)
    (harm : st.armedFinal = false) (hstrike : st.finalStrike = false)
    (hn : st.nudges = 0) (hmax : cfg.maxNudges ≤ 1)
    (hs : s < cfg.nudgeThreshold) (h0 : 0 < cfg.maxNudges)
    (hc : now - st.lastNudge > cfg.nudgeCooldownMs) :
    (attnStep cfg st (AttnInput.tick now s)).armedFinal = true := by
  simp only [attnStep, loopStep, strikePhase_armedFinal, hystPhase_armedFinal]
  unfold nudgePhase
  simp only [scorePhase_finalStrike, scorePhase_armedFinal, scorePhase_nudges,
    scorePhase_lastNudge]
  rw [if_pos ⟨hstrike, harm, hs, by omega⟩, if_pos hc, if_pos (by omega)]

theorem syncRel_step (cfg : AttnCfg) (st1 st2 : AttnState) (i : AttnInput)
    (hmax : cfg.maxNudges ≤ 1) (hr : syncRel st1 st2) :
    syncRel (attnStep cfg st1 i) (attnStep2 cfg initFrozen st2 i) := by
  cases i with
  | tick now s =>
      by_cases h2 : st2.armedFinal = true
      · have k1 : (attnStep cfg st1 (AttnInput.tick now s)).armedFinal = true :=
          attnStep_armed_mono cfg st1 (AttnInput.tick now s) (hr.1 h2)
        have k2 : (attnStep2 cfg initFrozen st2
            (AttnInput.tick now s)).armedFinal = true :=
          attnStep2_armed_mono cfg initFrozen st2 (AttnInput.tick now s) h2
        exact ⟨fun _ => k1, fun hf => absurd k2 (by simp [hf])⟩
      · have h2f : st2.armedFinal = false := by simpa using h2
        obtain ⟨ha1, hf1, hf2, hn1, hn2, hl⟩ := hr.2 h2f
        by_cases hfire : s < cfg.nudgeThreshold ∧ 0 < cfg.maxNudges ∧
            now - st2.lastNudge > cfg.nudgeCooldownMs
        · obtain ⟨hs, hpos, hc⟩ := hfire
          have he : emitsNudge2 cfg initFrozen st2 now s = true := by
            simp only [emitsNudge2, Bool.and_eq_true, Bool.not_eq_true',
              decide_eq_true_eq]
            have h0 : initFrozen.nudges = 0 := rfl
            exact ⟨⟨⟨⟨rfl, rfl⟩, hs⟩, by omega⟩, hc⟩
          have k2 : (attnStep2 cfg initFrozen st2
              (AttnInput.tick now s)).armedFinal = true :=
            attnStep2_emission_arms cfg st2 now s hmax he
          have k1 : (attnStep cfg st1 (AttnInput.tick now s)).armedFinal
              = true :=
            tick_fire_arms_v1 cfg st1 now s ha1 hf1 hn1 hmax hs hpos
              (by rw [hl]; exact hc)
          exact ⟨fun _ => k1, fun hf => absurd k2 (by simp [hf])⟩
        · have p2 := tick_frame_v2 cfg st2 now s h2f hfire
          have p1 := tick_frame_v1 cfg st1 now s ha1 (by
            intro hcon
            exact hfire ⟨hcon.1, by omega, by rw [← hl]; exact hcon.2.2⟩)
          refine ⟨fun hf => absurd hf (by simp [p2.1]), fun _ => ?_⟩
          exact ⟨p1.1, by rw [p1.2.1]; exact hf1, by rw [p2.2.1]; exact hf2,
            by rw [p1.2.2.1]; exact hn1, by rw [p2.2.2.1]; exact hn2,
            by rw [p1.2.2.2, p2.2.2.2]; exact hl⟩
  | keydown now m c a =>
      simp only [attnStep, attnStep2]
      split_ifs <;> exact hr
  | inputEvt now => exact ⟨fun h => hr.1 h, fun h => hr.2 h⟩
  | mousemove now => exact ⟨fun h => hr.1 h, fun h => hr.2 h⟩
  | mousedown now => exact ⟨fun h => hr.1 h, fun h => hr.2 h⟩
  | wheel now => exact ⟨fun h => hr.1 h, fun h => hr.2 h⟩
  | selectionchange now => exact ⟨fun h => hr.1 h, fun h => hr.2 h⟩
  | nudgeHideTimeout => exact ⟨fun h => hr.1 h, fun h => hr.2 h⟩

theorem recOcc2_imp_recOcc (cfg : AttnCfg) (hmax : cfg.maxNudges ≤ 1) :
    ∀ (l : List AttnInput) (st1 st2 : AttnState), syncRel st1 st2 →
      recOcc2 cfg st2 l = true → recOcc cfg st1 l = true := by
  intro l
  induction l with
  | nil =>
      intro st1 st2 _ h
      simp [recOcc2] at h
  | cons i rest ih =>
      intro st1 st2 hr h
      simp only [recOcc2, Bool.or_eq_true] at h
      simp only [recOcc, Bool.or_eq_true]
      rcases h with hhead | htail
      · left
        cases i with
        | tick now s => exact tickRecovery2_imp_tickRecovery cfg st1 st2 now s hr hhead
        | keydown now m c a => cases hhead
        | inputEvt now => cases hhead
        | mousemove now => cases hhead
        | mousedown now => cases hhead
        | wheel now => cases hhead
        | selectionchange now => cases hhead
        | nudgeHideTimeout => cases hhead
      · right
        exact ih (attnStep cfg st1 i) (attnStep2 cfg initFrozen st2 i)
          (syncRel_step cfg st1 st2 i hmax hr) htail

/-- C2: in either variant, a strike can only be present if some earlier (or
same) frame since arming was a hysteresis recovery — a frame at which, with
the final warning armed, the score sample exceeded `finalThreshold + 0.08`.
Contrapositive of the claim: a dip below `finalThreshold` that was not
preceded by such a recovery never sets the strike. -/
theorem strike_needs_recovery (cfg : AttnCfg) (l : List AttnInput) :
    ((attnRun cfg l).finalStrike = true → recOcc cfg initAttn l = true) ∧
    ((attnRun2 cfg l).finalStrike = true → recOcc cfg initAttn l = true) := by
  constructor
  · intro h
    rcases foldl_strike_requires_recovery cfg l initAttn h with h1 | h2 | h3
    · cases h1
    · rcases h2 with ⟨h2, -⟩
      cases h2
    · exact h3
  · intro h
    by_cases hmax : cfg.maxNudges ≤ 1
    · have h2 : recOcc2 cfg initAttn l = true := by
        rcases foldl2_strike_requires_recovery cfg l initAttn h with h1 | h2 | h3
        · cases h1
        · rcases h2 with ⟨h2, -⟩
          cases h2
        · exact h3
      exact recOcc2_imp_recOcc cfg hmax l initAttn initAttn syncRel_init h2
    · exfalso
      have harm : (attnRun2 cfg l).armedFinal = false :=
        foldl2_armed_false cfg l (by omega) initAttn rfl
      have hthis : (attnRun2 cfg l).armedFinal = true :=
        foldl2_strike_imp_armed cfg initFrozen l initAttn
          (fun hh => by cases hh) h
      rw [hthis] at harm
      cases harm

/-- C2 witness: in the striking session of the second variant (two nudges,
recovery at score 0.5 above 0.35 + 0.08, then a dip to 0.3), the strike is
present and a recovery indeed occurred. -/
theorem strike_needs_recovery_witness :
    (attnRun attnDefaults2
        [AttnInput.tick 16000 (3/10), AttnInput.tick 32000 (3/10),
         AttnInput.tick 33000 (1/2), AttnInput.tick 34000 (3/10)]).finalStrike
      = true ∧
    recOcc attnDefaults2 initAttn
        [AttnInput.tick 16000 (3/10), AttnInput.tick 32000 (3/10),
         AttnInput.tick 33000 (1/2), AttnInput.tick 34000 (3/10)] = true := by
  have hstrike : (attnRun attnDefaults2
      [AttnInput.tick 16000 (3/10), AttnInput.tick 32000 (3/10),
       AttnInput.tick 33000 (1/2), AttnInput.tick 34000 (3/10)]).finalStrike
        = true := by
    norm_num [attnRun, attnStep, loopStep, nudgePhase, hystPhase, strikePhase,
      scorePhase, initAttn, attnDefaults2]
  exact ⟨hstrike,
    (strike_needs_recovery attnDefaults2
      [AttnInput.tick 16000 (3/10), AttnInput.tick 32000 (3/10),
       AttnInput.tick 33000 (1/2), AttnInput.tick 34000 (3/10)]).1 hstrike⟩

/-- C7 counterexample: in the second variant, after a session in which one
nudge fired, disabling the hook leaves the nudge counter at 1 instead of
resetting it to its initial value 0 (the disabled branch is a bare `return`;
only the cleanup's `setShowNudge(false)` runs). -/
theorem variant2_disable_keeps_nudges :
    (cleanupOnDisable2
        (attnRun2 attnDefaults2 [AttnInput.tick 16000 (3/10)])).nudges = 1 ∧
    initAttn.nudges = 0 := by
  constructor
  · norm_num [cleanupOnDisable2, attnRun2, attnStep2, loopStep2, nudgePhase2,
      hystPhase, strikePhase2, scorePhase2, initAttn, initFrozen, frozenOf,
      attnDefaults2]
  · rfl

/-- C7 amended: in the ref-based variant, disabling resets every field of
the attention state to its initial value (`score = 1`, `worstScore = 1`,
`nudges = 0`, `showNudge = false`, `showFinalWarning = false`,
`finalStrike = false`, `armedFinal = false`, `hysteresisOk = true`,
`lastNudge = 0`); in the second variant, disabling only hides the nudge
toast (`showNudge = false`) and leaves every other field unchanged, so a
later phase does not start fresh there. -/
theorem disable_reset_fields (st : AttnState) :
    (resetOnDisable st).score = 1 ∧
    (resetOnDisable st).showNudge = false ∧
    (resetOnDisable st).nudges = 0 ∧
    (resetOnDisable st).showFinalWarning = false ∧
    (resetOnDisable st).finalStrike = false ∧
    (resetOnDisable st).worstScore = 1 ∧
    (resetOnDisable st).armedFinal = false ∧
    (resetOnDisable st).hysteresisOk = true ∧
    (resetOnDisable st).lastNudge = 0 ∧
    (cleanupOnDisable2 st).showNudge = false ∧
    (cleanupOnDisable2 st).score = st.score ∧
    (cleanupOnDisable2 st).nudges = st.nudges ∧
    (cleanupOnDisable2 st).showFinalWarning = st.showFinalWarning ∧
    (cleanupOnDisable2 st).finalStrike = st.finalStrike ∧
    (cleanupOnDisable2 st).worstScore = st.worstScore ∧
    (cleanupOnDisable2 st).armedFinal = st.armedFinal ∧
    (cleanupOnDisable2 st).hysteresisOk = st.hysteresisOk ∧
    (cleanupOnDisable2 st).lastNudge = st.lastNudge :=
  ⟨rfl, rfl, rfl, rfl, rfl, rfl, rfl, rfl, rfl, rfl, rfl, rfl, rfl, rfl, rfl,
    rfl, rfl, rfl⟩

/-- C8: in either variant, every recognized activity event — key-down with
no meta/ctrl/alt modifier, input, pointer move/down, wheel, selection
change — sets `lastActivityTimestamp` to the event's time and the score to
1 in the same step, from any current state; a key-down with a modifier held
leaves the state untouched. -/
theorem activity_events_mark_active (cfg : AttnCfg) (fz : AttnFrozen)
    (st : AttnState) (now : ℚ) (m c a : Bool) :
    ((m || c || a) = false →
      attnStep cfg st (AttnInput.keydown now m c a) = markActive now st) ∧
    ((m || c || a) = true →
      attnStep cfg st (AttnInput.keydown now m c a) = st) ∧
    attnStep cfg st (AttnInput.inputEvt now) = markActive now st ∧
    attnStep cfg st (AttnInput.mousemove now) = markActive now st ∧
    attnStep cfg st (AttnInput.mousedown now) = markActive now st ∧
    attnStep cfg st (AttnInput.wheel now) = markActive now st ∧
    attnStep cfg st (AttnInput.selectionchange now) = markActive now st ∧
    (markActive now st).lastAct = now ∧
    (markActive now st).score = 1 ∧
    ((m || c || a) = false →
      attnStep2 cfg fz st (AttnInput.keydown now m c a) = markActive now st) ∧
    ((m || c || a) = true →
      attnStep2 cfg fz st (AttnInput.keydown now m c a) = st) ∧
    attnStep2 cfg fz st (AttnInput.inputEvt now) = markActive now st ∧
    attnStep2 cfg fz st (AttnInput.selectionchange now) = markActive now st := by
  refine ⟨?_, ?_, rfl, rfl, rfl, rfl, rfl, rfl, rfl, ?_, ?_, rfl, rfl⟩
  · intro h
    simp [attnStep, h]
  · intro h
    simp [attnStep, h]
  · intro h
    simp [attnStep2, h]
  · intro h
    simp [attnStep2, h]

/-- C8 witness: concrete instantiation of `activity_events_mark_active` on
an unmodified key-down and on a ctrl-modified key-down. -/
theorem activity_events_mark_active_witness :
    ((false || false || false) = false ∧
      attnStep attnDefaults1 initAttn (AttnInput.keydown 7 false false false)
        = markActive 7 initAttn) ∧
    ((false || true || false) = true ∧
      attnStep attnDefaults1
          { initAttn with score := 1/2 } (AttnInput.keydown 7 false true false)
        = { initAttn with score := 1/2 }) := by
  refine ⟨⟨rfl, ?_⟩, ⟨rfl, ?_⟩⟩
  · exact (activity_events_mark_active attnDefaults1 initFrozen initAttn 7
      false false false).1 rfl
  · exact (activity_events_mark_active attnDefaults1 initFrozen
      { initAttn with score := 1/2 } 7 false true false).2.1 rfl

/-! ### Decay formula theorems -/

theorem scoreOf_exp_le_one (g hl t : ℝ) (hpos : 0 < hl) (hgt : g < t) :
    Real.exp (-(Real.log 2) * ((t - g) / hl)) ≤ 1 := by
  have h1 : 0 < (t - g) / hl := div_pos (by linarith) hpos
  have h2 : 0 < Real.log 2 := Real.log_pos one_lt_two
  have h3 : -(Real.log 2) * ((t - g) / hl) ≤ 0 := by nlinarith
  calc Real.exp (-(Real.log 2) * ((t - g) / hl)) ≤ Real.exp 0 :=
        Real.exp_le_exp.mpr h3
    _ = 1 := Real.exp_zero

/-- C3: for every idle duration `t`, the per-frame score is 1 when
`t ≤ graceMs` and `max(minScore, exp(-ln2·(t-graceMs)/halfLifeMs))` when
`t > graceMs`; it is monotonically non-increasing in `t`, and (for a
positive half-life and a floor at most 1, as configured) always lies in
`[0, 1]`. -/
theorem score_decay_formula (g hl m : ℝ) (hpos : 0 < hl) (hm : m ≤ 1) :
    (∀ t, t ≤ g → scoreOf g hl m t = 1) ∧
    (∀ t, g < t → scoreOf g hl m t
        = max m (Real.exp (-(Real.log 2) * ((t - g) / hl)))) ∧
    Antitone (scoreOf g hl m) ∧
    (∀ t, 0 ≤ scoreOf g hl m t ∧ scoreOf g hl m t ≤ 1) := by
  refine ⟨?_, ?_, ?_, ?_⟩
  · intro t ht
    simp only [scoreOf, if_neg (not_lt.mpr ht)]
  · intro t ht
    simp only [scoreOf, if_pos ht]
  · intro a b hab
    simp only [scoreOf]
    by_cases hbg : g < b
    · by_cases hag : g < a
      · rw [if_pos hbg, if_pos hag]
        refine max_le_max le_rfl (Real.exp_le_exp.mpr ?_)
        have h2 : 0 < Real.log 2 := Real.log_pos one_lt_two
        have h3 : (a - g) / hl ≤ (b - g) / hl :=
          (div_le_div_iff_of_pos_right hpos).mpr (by linarith)
        nlinarith
      · rw [if_pos hbg, if_neg hag]
        exact max_le hm (scoreOf_exp_le_one g hl b hpos hbg)
    · have hag : ¬ g < a := fun hc => hbg (lt_of_lt_of_le hc hab)
      rw [if_neg hbg, if_neg hag]
  · intro t
    simp only [scoreOf]
    by_cases htg : g < t
    · rw [if_pos htg]
      exact ⟨le_trans (Real.exp_pos _).le (le_max_right _ _),
        max_le hm (scoreOf_exp_le_one g hl t hpos htg)⟩
    · rw [if_neg htg]
      exact ⟨zero_le_one, le_refl 1⟩

/-- C3 witness: `score_decay_formula` at the configured defaults
`graceMs = 5000`, `halfLifeMs = 15000`, `minScore = 0.05`. -/
theorem score_decay_formula_witness :
    ((0:ℝ) < 15000 ∧ (1:ℝ)/20 ≤ 1) ∧
    ((∀ t : ℝ, t ≤ 5000 → scoreOf 5000 15000 (1/20) t = 1) ∧
      (∀ t : ℝ, 5000 < t → scoreOf 5000 15000 (1/20) t
          = max (1/20) (Real.exp (-(Real.log 2) * ((t - 5000) / 15000)))) ∧
      Antitone (scoreOf 5000 15000 (1/20)) ∧
      (∀ t : ℝ, 0 ≤ scoreOf 5000 15000 (1/20) t ∧
        scoreOf 5000 15000 (1/20) t ≤ 1)) :=
  ⟨⟨by norm_num, by norm_num⟩,
    score_decay_formula 5000 15000 (1/20) (by norm_num) (by norm_num)⟩
